import Mathlib

/-!
Verification of the utility layer and the vote data model of the
`flick-pick` repository against its natural-language specification.

The TypeScript functions of `src/lib/utils.ts` are shallowly embedded as
Lean functions.  JavaScript `number | null` inputs that are integral in
this code base (movie runtimes in minutes) are modelled as `Option Int`;
`Math.floor (x / 60)` on integers is flooring division (`Int.fdiv`) and
the JavaScript `%` operator truncates toward zero (`Int.tmod`).
Operations that may throw (`JSON.parse`, `localStorage`, the database
driver, `btoa`) are modelled as `Except`-valued behaviours, and a
`try`/`catch` block becomes a `match` on that `Except`.
-/

/-- Embedding of `formatRuntime` from `src/lib/utils.ts` (lines 9-19).
`minutes : number | null` is modelled as `Option Int`.  The guard
`if (!minutes)` is true for `null` and for `0` (JavaScript falsiness),
so both are sent to `"Unknown"`.  `Math.floor(minutes / 60)` is
`Int.fdiv minutes 60` and the JavaScript remainder `minutes % 60` is
`Int.tmod minutes 60`.  The template literals are string concatenation
of the decimal renderings. -/
def formatRuntime : Option Int → String
  | none => "Unknown"
  | some minutes =>
    if minutes = 0 then "Unknown"
    else if Int.fdiv minutes 60 = 0 then toString (Int.tmod minutes 60) ++ "m"
    else if Int.tmod minutes 60 = 0 then toString (Int.fdiv minutes 60) ++ "h"
    else toString (Int.fdiv minutes 60) ++ "h " ++ toString (Int.tmod minutes 60) ++ "m"

/-- Embedding of `getTmdbImageUrl` from `src/lib/utils.ts` (lines 37-40).
`path : string | null` is modelled as `Option String`.  The guard
`if (!path)` is true both for `null` and for the empty string
(JavaScript falsiness). -/
def getTmdbImageUrl (path : Option String) (size : String) : String :=
  match path with
  | none => "/placeholder-movie.jpg"
  | some p =>
    if p = "" then "/placeholder-movie.jpg"
    else "https://image.tmdb.org/t/p/" ++ size ++ p

/-- The one-argument form of `getTmdbImageUrl`: the `size` parameter
defaults to `"w500"` in the TypeScript signature. -/
def getTmdbImageUrlDefault (path : Option String) : String :=
  getTmdbImageUrl path "w500"

/-- C2: for every non-null, non-zero minute count `m`, `formatRuntime m`
is `"Hh Mm"` with `H = ⌊m / 60⌋` and `M = m mod 60`, the `"Hh "` part
omitted when `H = 0` and the `" Mm"` part omitted when `M = 0`. -/
theorem formatRuntime_hours_minutes (m : Nat) (h : m ≠ 0) :
    formatRuntime (some (m : Int)) =
      if m / 60 = 0 then toString (m % 60) ++ "m"
      else if m % 60 = 0 then toString (m / 60) ++ "h"
      else toString (m / 60) ++ "h " ++ toString (m % 60) ++ "m" := by
  have hd : Int.fdiv ((m : Nat) : Int) (60 : Int) = ((m / 60 : Nat) : Int) :=
    (Int.ofNat_fdiv m 60).symm
  have hm : Int.tmod ((m : Nat) : Int) (60 : Int) = ((m % 60 : Nat) : Int) :=
    (Int.ofNat_tmod m 60).symm
  have h0 : ¬(((m : Nat) : Int) = 0) := by exact_mod_cast h
  have ts1 : toString ((m / 60 : Nat) : Int) = toString (m / 60) := rfl
  have ts2 : toString ((m % 60 : Nat) : Int) = toString (m % 60) := rfl
  simp only [formatRuntime, hd, hm, h0, if_false, Nat.cast_eq_zero, ts1, ts2]

/-- Witness for C2: the spec's own example, `formatRuntime 125 = "2h 5m"`. -/
theorem formatRuntime_hours_minutes_witness :
    formatRuntime (some ((125 : Nat) : Int)) = "2h 5m" := by
  rw [formatRuntime_hours_minutes 125 (by decide)]
  decide

/-- C9: `formatRuntime 0 = "Unknown"`: the null guard tests JavaScript
falsiness, so a zero runtime is reported exactly like a null runtime. -/
theorem formatRuntime_zero_unknown :
    formatRuntime (some 0) = "Unknown" ∧ formatRuntime none = "Unknown" :=
  ⟨rfl, rfl⟩

/-- Counterexample for C3: for the non-null empty path the function
returns the placeholder, not the concatenation
`"https://image.tmdb.org/t/p/" ++ size ++ path` the claim promises for
every non-null path. -/
theorem getTmdbImageUrl_empty_cex :
    getTmdbImageUrl (some "") "w500" = "/placeholder-movie.jpg" ∧
      getTmdbImageUrl (some "") "w500" ≠ "https://image.tmdb.org/t/p/" ++ "w500" ++ "" := by
  exact ⟨rfl, by decide⟩

/-- C3 (amended): `getTmdbImageUrl` returns `"/placeholder-movie.jpg"`
when the path is null or the empty string, and otherwise the
concatenation `"https://image.tmdb.org/t/p/" ++ size ++ path`; the size
defaults to `"w500"`; in particular the null path gives the
placeholder. -/
theorem getTmdbImageUrl_spec (size : String) (path : Option String) :
    getTmdbImageUrl none size = "/placeholder-movie.jpg" ∧
    getTmdbImageUrl (some "") size = "/placeholder-movie.jpg" ∧
    (∀ p : String, p ≠ "" →
      getTmdbImageUrl (some p) size = "https://image.tmdb.org/t/p/" ++ size ++ p) ∧
    getTmdbImageUrlDefault path = getTmdbImageUrl path "w500" := by
  refine ⟨rfl, rfl, ?_, rfl⟩
  intro p hp
  simp [getTmdbImageUrl, hp]

/-- Witness for C3: the spec's example `getTmdbImageUrl null` and a
concrete non-empty path at the default size. -/
theorem getTmdbImageUrl_spec_witness :
    getTmdbImageUrl none "w500" = "/placeholder-movie.jpg" ∧
      getTmdbImageUrl (some "/abc.jpg") "w500" = "https://image.tmdb.org/t/p/w500/abc.jpg" := by
  refine ⟨(getTmdbImageUrl_spec "w500" none).1, ?_⟩
  rw [(getTmdbImageUrl_spec "w500" none).2.2.1 "/abc.jpg" (by decide)]
  decide

/-- Embedding of `safeJsonParse` from `src/lib/utils.ts` (lines 94-100).
The behaviour of the JavaScript builtin `JSON.parse` (including the cast
to `T`) is a parameter `jsonParse`: `Except.ok v` models a successful
parse returning `v`, `Except.error` models a thrown `SyntaxError`.  The
`try`/`catch` becomes a `match`. -/
def safeJsonParse {α : Type} (jsonParse : String → Except Unit α)
    (json : String) (fallback : α) : α :=
  match jsonParse json with
  | Except.ok v => v
  | Except.error _ => fallback

/-- C4: for every string and fallback, `safeJsonParse` returns the
parsed value when parsing succeeds and exactly the caller-supplied
fallback when parsing throws; being a total Lean function of the parse
outcome, it propagates no exception itself. -/
theorem safeJsonParse_spec {α : Type} (jsonParse : String → Except Unit α)
    (json : String) (fallback : α) :
    (∀ v, jsonParse json = Except.ok v → safeJsonParse jsonParse json fallback = v) ∧
    (jsonParse json = Except.error () → safeJsonParse jsonParse json fallback = fallback) := by
  constructor
  · intro v hv
    simp [safeJsonParse, hv]
  · intro he
    simp [safeJsonParse, he]

/-- A concrete `JSON.parse` behaviour used by the C4 witness: `"1"`
parses to `1`, everything else throws. -/
def jsonParseOne : String → Except Unit Nat :=
  fun s => if s = "1" then Except.ok 1 else Except.error ()

/-- Witness for C4: a successful parse returns the parsed value and a
failing parse returns the fallback. -/
theorem safeJsonParse_spec_witness :
    safeJsonParse jsonParseOne "1" 0 = 1 ∧ safeJsonParse jsonParseOne "oops" 0 = 0 :=
  ⟨(safeJsonParse_spec jsonParseOne "1" 0).1 1 (by simp [jsonParseOne]),
   (safeJsonParse_spec jsonParseOne "oops" 0).2 (by simp [jsonParseOne])⟩

/-- Embedding of `healthCheck` from the database utility module
(`lib/db.ts` content shipped with `src/lib/utils.ts`, lines 149-156).
The awaited outcome of the driver call `prisma.$queryRaw SELECT 1` is a
parameter of type `Except ε Unit`: `Except.ok` models a successful
query, `Except.error e` models a thrown driver error `e`.  The
`try`/`catch` becomes a `match`. -/
def healthCheck {ε : Type} (queryRaw : Except ε Unit) : Bool :=
  match queryRaw with
  | Except.ok _ => true
  | Except.error _ => false

/-- C5: `healthCheck` always returns a boolean — `true` when the
`SELECT 1` query succeeds and `false` when it throws — for every
behaviour of the database driver; no driver error is propagated. -/
theorem healthCheck_spec {ε : Type} (queryRaw : Except ε Unit) :
    (queryRaw = Except.ok () → healthCheck queryRaw = true) ∧
    (∀ e : ε, queryRaw = Except.error e → healthCheck queryRaw = false) := by
  constructor
  · intro h
    simp [healthCheck, h]
  · intro e h
    simp [healthCheck, h]

/-- Witness for C5: a succeeding and a failing driver call. -/
theorem healthCheck_spec_witness :
    healthCheck (Except.ok () : Except String Unit) = true ∧
      healthCheck (Except.error "connection refused" : Except String Unit) = false :=
  ⟨(healthCheck_spec (Except.ok ())).1 rfl,
   (healthCheck_spec (Except.error "connection refused")).2 "connection refused" rfl⟩

/-- Embedding of `storage.get` from `src/lib/utils.ts` (lines 107-114).
`isBrowser` is the module-level constant `typeof window !== 'undefined'`;
`getItem` is the behaviour of `localStorage.getItem`, which returns
`string | null` (`Option String`) or throws.  The result type is
`Except`-valued so that "the accessor itself throws" is representable
(`Except.error`) and provably never happens. -/
def storageGet (isBrowser : Bool) (getItem : String → Except Unit (Option String))
    (key : String) : Except Unit (Option String) :=
  if !isBrowser then Except.ok none
  else
    match getItem key with
    | Except.ok v => Except.ok v
    | Except.error _ => Except.ok none

/-- Embedding of `storage.set` from `src/lib/utils.ts` (lines 116-123).
`setItem` is the behaviour of `localStorage.setItem` on the current
store `st : σ`: it returns the possibly-updated store together with
`some e` when it threw (e.g. quota exceeded) and `none` when it did not.
The wrapper catches the exception and returns normally either way. -/
def storageSet {σ : Type} (isBrowser : Bool)
    (setItem : String → String → σ → σ × Option Unit)
    (key value : String) (st : σ) : Except Unit σ :=
  if !isBrowser then Except.ok st
  else Except.ok (setItem key value st).1

/-- Embedding of `storage.remove` from `src/lib/utils.ts` (lines
125-132), analogous to `storage.set`. -/
def storageRemove {σ : Type} (isBrowser : Bool)
    (removeItem : String → σ → σ × Option Unit)
    (key : String) (st : σ) : Except Unit σ :=
  if !isBrowser then Except.ok st
  else Except.ok (removeItem key st).1

/-- C6: the local-storage accessors never throw, for every key, value
and underlying `localStorage` behaviour: each returns `Except.ok`;
`get` returns `null` outside a browser and when `getItem` throws; `set`
and `remove` leave the store untouched outside a browser, and also when
the underlying call throws without having modified the store (as a
quota-exceeded `setItem` does). -/
theorem storage_spec {σ : Type} (isBrowser : Bool)
    (getItem : String → Except Unit (Option String))
    (setItem : String → String → σ → σ × Option Unit)
    (removeItem : String → σ → σ × Option Unit)
    (key value : String) (st : σ) :
    (∃ r, storageGet isBrowser getItem key = Except.ok r) ∧
    (∃ st2, storageSet isBrowser setItem key value st = Except.ok st2) ∧
    (∃ st2, storageRemove isBrowser removeItem key st = Except.ok st2) ∧
    (isBrowser = false → storageGet isBrowser getItem key = Except.ok none ∧
      storageSet isBrowser setItem key value st = Except.ok st ∧
      storageRemove isBrowser removeItem key st = Except.ok st) ∧
    (getItem key = Except.error () → storageGet isBrowser getItem key = Except.ok none) ∧
    (setItem key value st = (st, some ()) →
      storageSet isBrowser setItem key value st = Except.ok st) ∧
    (removeItem key st = (st, some ()) →
      storageRemove isBrowser removeItem key st = Except.ok st) := by
  refine ⟨?_, ?_, ?_, ?_, ?_, ?_, ?_⟩
  · cases isBrowser with
    | false => exact ⟨none, rfl⟩
    | true =>
      cases hg : getItem key with
      | ok v => exact ⟨v, by simp [storageGet, hg]⟩
      | error e => exact ⟨none, by simp [storageGet, hg]⟩
  · cases isBrowser with
    | false => exact ⟨st, rfl⟩
    | true => exact ⟨(setItem key value st).1, rfl⟩
  · cases isBrowser with
    | false => exact ⟨st, rfl⟩
    | true => exact ⟨(removeItem key st).1, rfl⟩
  · intro h
    subst h
    exact ⟨rfl, rfl, rfl⟩
  · intro hg
    cases isBrowser with
    | false => rfl
    | true => simp [storageGet, hg]
  · intro hs
    cases isBrowser with
    | false => rfl
    | true => simp [storageSet, hs]
  · intro hr
    cases isBrowser with
    | false => rfl
    | true => simp [storageRemove, hr]

/-- A throwing `localStorage` behaviour used by the C6 witness: every
call throws and leaves the store unchanged. -/
def throwingGetItem : String → Except Unit (Option String) :=
  fun _ => Except.error ()

/-- A quota-exceeded `setItem` behaviour for the C6 witness: it throws
and leaves the store unchanged. -/
def quotaSetItem : String → String → List (String × String) →
    List (String × String) × Option Unit :=
  fun _ _ st => (st, some ())

/-- A throwing `removeItem` behaviour for the C6 witness. -/
def throwingRemoveItem : String → List (String × String) →
    List (String × String) × Option Unit :=
  fun _ st => (st, some ())

/-- Witness for C6: in a browser whose `localStorage` throws on every
call, `get` returns `Except.ok none` and `set`/`remove` return the
store unchanged — nothing propagates. -/
theorem storage_spec_witness :
    storageGet true throwingGetItem "k" = Except.ok none ∧
      storageSet true quotaSetItem "k" "v" [] = Except.ok [] ∧
      storageRemove true throwingRemoveItem "k" [] = Except.ok [] :=
  ⟨(storage_spec true throwingGetItem quotaSetItem throwingRemoveItem "k" "v" []).2.2.2.2.1 rfl,
   (storage_spec true throwingGetItem quotaSetItem throwingRemoveItem "k" "v" []).2.2.2.2.2.1 rfl,
   (storage_spec true throwingGetItem quotaSetItem throwingRemoveItem "k" "v" []).2.2.2.2.2.2 rfl⟩

/-- A JavaScript `Date` object as far as `formatReleaseYear` observes
it: `yearNum` is the value `getFullYear()` would return, with `none`
modelling `NaN` (the year of an Invalid Date). -/
structure JSDate where
  yearNum : Option Int
deriving DecidableEq

/-- JavaScript number-to-string conversion restricted to the values
`getFullYear` produces: an integer year prints in decimal and `NaN`
prints as `"NaN"`. -/
def jsNumToString : Option Int → String
  | none => "NaN"
  | some y => toString y

/-- The `try` block of `formatReleaseYear` from `src/lib/utils.ts`
(lines 22-29).  `parseE` models `new Date(string)` and `getYearE`
models `Date.prototype.getFullYear`; each is allowed to throw
(`Except.error`), so that the reachability of the `catch` branch is a
statement about those behaviours rather than baked into the model. -/
def formatReleaseYearTry (parseE : String → Except Unit JSDate)
    (getYearE : JSDate → Except Unit (Option Int))
    (date : String ⊕ JSDate) : Except Unit String := do
  let dateObj ← match date with
    | Sum.inl s => parseE s
    | Sum.inr d => pure d
  let y ← getYearE dateObj
  pure (jsNumToString y)

/-- Embedding of `formatReleaseYear` from `src/lib/utils.ts` (lines
22-29): the `catch` branch maps any thrown error to `"Unknown"`. -/
def formatReleaseYear (parseE : String → Except Unit JSDate)
    (getYearE : JSDate → Except Unit (Option Int))
    (date : String ⊕ JSDate) : String :=
  match formatReleaseYearTry parseE getYearE date with
  | Except.ok r => r
  | Except.error _ => "Unknown"

/-- The date object the `try` block constructs from the input. -/
def dateObjOf (parse : String → JSDate) (date : String ⊕ JSDate) : JSDate :=
  match date with
  | Sum.inl s => parse s
  | Sum.inr d => d

/-- C10: under the ECMA-262 behaviours of the builtins — `new Date(s)`
never throws (hypothesis `hparse`, with `parse` its result) and
`getFullYear` never throws and yields `NaN` on an Invalid Date
(hypothesis `hyear`) — the `catch` branch of `formatReleaseYear` is
unreachable: the `try` block always succeeds with
`String(getFullYear(dateObj))`, the function returns exactly that
string, and an unparsable date string yields `"NaN"`, never
`"Unknown"`. -/
theorem formatReleaseYear_no_catch (parseE : String → Except Unit JSDate)
    (getYearE : JSDate → Except Unit (Option Int)) (parse : String → JSDate)
    (hparse : ∀ s, parseE s = Except.ok (parse s))
    (hyear : ∀ d, getYearE d = Except.ok d.yearNum) :
    (∀ date, formatReleaseYearTry parseE getYearE date =
        Except.ok (jsNumToString (dateObjOf parse date).yearNum)) ∧
    (∀ date, formatReleaseYear parseE getYearE date =
        jsNumToString (dateObjOf parse date).yearNum) ∧
    (∀ s, (parse s).yearNum = none →
        formatReleaseYear parseE getYearE (Sum.inl s) = "NaN") := by
  have htry : ∀ date, formatReleaseYearTry parseE getYearE date =
      Except.ok (jsNumToString (dateObjOf parse date).yearNum) := by
    intro date
    cases date with
    | inl s =>
      simp only [formatReleaseYearTry, hparse, hyear, dateObjOf]
      rfl
    | inr d =>
      simp only [formatReleaseYearTry, hyear, dateObjOf]
      rfl
  refine ⟨htry, ?_, ?_⟩
  · intro date
    simp [formatReleaseYear, htry]
  · intro s hs
    simp [formatReleaseYear, htry, dateObjOf, hs, jsNumToString]

/-- The ECMA-262 `Date` parse behaviour used by the C10 witness: every
string is unparsable, so every constructed date is an Invalid Date. -/
def invalidDateParse : String → JSDate := fun _ => JSDate.mk none

/-- The never-throwing `new Date` behaviour for the C10 witness. -/
def invalidDateParseE : String → Except Unit JSDate :=
  fun s => Except.ok (invalidDateParse s)

/-- The never-throwing `getFullYear` behaviour for the C10 witness. -/
def getFullYearE : JSDate → Except Unit (Option Int) :=
  fun d => Except.ok d.yearNum

/-- Witness for C10: with never-throwing builtins, the unparsable
string `"invalid-date"` is formatted as `"NaN"`, not `"Unknown"`. -/
theorem formatReleaseYear_no_catch_witness :
    formatReleaseYear invalidDateParseE getFullYearE (Sum.inl "invalid-date") = "NaN" :=
  (formatReleaseYear_no_catch invalidDateParseE getFullYearE invalidDateParse
    (fun _ => rfl) (fun _ => rfl)).2.2 "invalid-date" rfl

/-- The base64 alphabet, as used by the browser builtin `btoa`. -/
def base64Alphabet : List Char :=
  "ABCDEFGHIJKLMNOPQRSTUVWXYZabcdefghijklmnopqrstuvwxyz0123456789+/".toList

/-- The base64 digit for a 6-bit value. -/
def b64Digit (n : Nat) : Char := base64Alphabet.getD n 'A'

/-- Standard base64 encoding of a byte list, three bytes per four
output characters, with `'='` padding — the encoding `btoa` performs. -/
def btoaChunks : List Nat → List Char
  | [] => []
  | [b1] =>
    [b64Digit (b1 / 4), b64Digit (b1 % 4 * 16), '=', '=']
  | [b1, b2] =>
    [b64Digit (b1 / 4), b64Digit (b1 % 4 * 16 + b2 / 16), b64Digit (b2 % 16 * 4), '=']
  | b1 :: b2 :: b3 :: rest =>
    b64Digit (b1 / 4) :: b64Digit (b1 % 4 * 16 + b2 / 16) ::
      b64Digit (b2 % 16 * 4 + b3 / 64) :: b64Digit (b3 % 64) ::
      btoaChunks rest

/-- The browser builtin `btoa`: it base64-encodes the code units of its
argument, and throws an `InvalidCharacterError` (`Except.error`) when
some character is outside the latin-1 range. -/
def btoa (s : String) : Except Unit String :=
  if s.toList.any (fun c => 255 < c.toNat) then Except.error ()
  else Except.ok (String.mk (btoaChunks (s.toList.map Char.toNat)))

/-- The browser state `generateDeviceId` reads: `navigator.userAgent`,
`navigator.language`, `screen.width`/`screen.height`, the timezone
offset, and the data URL the fingerprint canvas produces after the
`fillText` drawing. -/
structure BrowserEnv where
  userAgent : String
  language : String
  screenWidth : Nat
  screenHeight : Nat
  timezoneOffset : Int
  canvasDataURL : String
deriving DecidableEq

/-- The `'|'`-joined fingerprint string of `generateDeviceId` from
`src/lib/utils.ts` (lines 53-59): user agent, language,
`width + 'x' + height`, `getTimezoneOffset()`, and `canvas.toDataURL()`,
each converted to a string as JavaScript `Array.prototype.join` does. -/
def fingerprintOf (env : BrowserEnv) : String :=
  String.intercalate "|"
    [env.userAgent, env.language,
     toString env.screenWidth ++ "x" ++ toString env.screenHeight,
     toString env.timezoneOffset, env.canvasDataURL]

/-- Embedding of `generateDeviceId` from `src/lib/utils.ts` (lines
43-62): `btoa(fingerprint).slice(0, 16)`, where `slice(0, 16)` keeps
the first 16 characters (fewer when the string is shorter).  The
`Except` propagates a `btoa` throw. -/
def generateDeviceId (env : BrowserEnv) : Except Unit String :=
  match btoa (fingerprintOf env) with
  | Except.ok b => Except.ok (String.mk (b.toList.take 16))
  | Except.error e => Except.error e

/-- Length of a base64 chunk encoding: four characters per started
three-byte group. -/
theorem btoaChunks_length : ∀ bs : List Nat,
    (btoaChunks bs).length = 4 * ((bs.length + 2) / 3)
  | [] => rfl
  | [_] => by simp [btoaChunks]
  | [_, _] => by simp [btoaChunks]
  | _ :: _ :: _ :: rest => by
    simp only [btoaChunks, List.length_cons, btoaChunks_length rest]
    omega

/-- Counterexample for C7: in the degenerate browser environment with
empty user agent, language and canvas data URL, a zero-sized screen and
timezone offset `0`, the fingerprint is the 8-character `"||0x0|0|"`,
whose base64 encoding has 12 characters — `slice(0, 16)` returns all 12
of them, not the 16 the claim promises for every environment. -/
theorem generateDeviceId_short_cex :
    generateDeviceId (BrowserEnv.mk "" "" 0 0 0 "") = Except.ok "fHwweDB8MHw=" ∧
      ("fHwweDB8MHw=" : String).length = 12 ∧
      ¬(("fHwweDB8MHw=" : String).length = 16) := by
  refine ⟨?_, rfl, by decide⟩
  rfl

/-- C7 (amended): for every browser environment whose fingerprint
contains only latin-1 characters (`btoa` throws on any other),
`generateDeviceId` returns the base64 encoding of the `'|'`-joined
fingerprint truncated to its first 16 characters; the result therefore
has at most 16 characters, and exactly 16 whenever the fingerprint is
at least 10 characters long. -/
theorem generateDeviceId_spec (env : BrowserEnv)
    (hlatin : ∀ c ∈ (fingerprintOf env).toList, c.toNat ≤ 255) :
    generateDeviceId env =
      Except.ok (String.mk
        ((btoaChunks ((fingerprintOf env).toList.map Char.toNat)).take 16)) ∧
    (∀ s, generateDeviceId env = Except.ok s → s.length ≤ 16) ∧
    (10 ≤ (fingerprintOf env).length →
      ∀ s, generateDeviceId env = Except.ok s → s.length = 16) := by
  have hany : (fingerprintOf env).toList.any (fun c => 255 < c.toNat) = false := by
    simp only [List.any_eq_false, decide_eq_true_eq, Nat.not_lt]
    intro c hc
    exact hlatin c hc
  have hbtoa : btoa (fingerprintOf env) =
      Except.ok (String.mk (btoaChunks ((fingerprintOf env).toList.map Char.toNat))) := by
    simp only [btoa]
    rw [hany]
    rfl
  have hlen1 : ((fingerprintOf env).toList.map Char.toNat).length =
      (fingerprintOf env).length := by
    rw [List.length_map]
    rfl
  have hid : generateDeviceId env =
      Except.ok (String.mk
        ((btoaChunks ((fingerprintOf env).toList.map Char.toNat)).take 16)) := by
    simp [generateDeviceId, hbtoa]
  have hsl : (String.mk ((btoaChunks ((fingerprintOf env).toList.map Char.toNat)).take 16)).length
      = ((btoaChunks ((fingerprintOf env).toList.map Char.toNat)).take 16).length := rfl
  refine ⟨hid, ?_, ?_⟩
  · intro s hs
    rw [hid] at hs
    injection hs with h
    subst h
    rw [hsl, List.length_take]
    exact min_le_left _ _
  · intro hfp s hs
    rw [hid] at hs
    injection hs with h
    subst h
    have hchunks : (btoaChunks ((fingerprintOf env).toList.map Char.toNat)).length =
        4 * (((fingerprintOf env).length + 2) / 3) := by
      rw [btoaChunks_length, hlen1]
    rw [hsl, List.length_take, hchunks]
    have h16 : 16 ≤ 4 * (((fingerprintOf env).length + 2) / 3) := by omega
    omega

/-- Witness for C7: a concrete latin-1 environment; its fingerprint is
at least 10 characters long, so the device id is exactly the first 16
base64 characters. -/
theorem generateDeviceId_spec_witness :
    generateDeviceId (BrowserEnv.mk "Mozilla" "en-US" 1920 1080 300 "data:image") =
      Except.ok (String.mk
        ((btoaChunks ((fingerprintOf
            (BrowserEnv.mk "Mozilla" "en-US" 1920 1080 300 "data:image")).toList.map
          Char.toNat)).take 16)) ∧
      (∀ s, generateDeviceId (BrowserEnv.mk "Mozilla" "en-US" 1920 1080 300 "data:image") =
        Except.ok s → s.length = 16) := by
  have h := generateDeviceId_spec (BrowserEnv.mk "Mozilla" "en-US" 1920 1080 300 "data:image")
    (by decide)
  exact ⟨h.1, h.2.2 (by decide)⟩

/-- Trace semantics of the closure returned by `throttle` from
`src/lib/utils.ts` (lines 78-91).  A call of the wrapped function is
identified by its `Date.now()` timestamp; the argument list is the
sequence of call times (nondecreasing, since `Date.now()` is), the
result the times at which `func` actually runs.  `lastCall` is the
closure variable of the same name, initially `0`; the guard
`now - lastCall >= delay` is Nat subtraction, which agrees with the
JavaScript subtraction on the nondecreasing traces considered. -/
def throttleAux (delay : Nat) : Nat → List Nat → List Nat
  | _, [] => []
  | lastCall, now :: rest =>
    if delay ≤ now - lastCall then now :: throttleAux delay now rest
    else throttleAux delay lastCall rest

/-- The throttled closure run from its initial state `lastCall = 0`. -/
def throttleRun (delay : Nat) (calls : List Nat) : List Nat :=
  throttleAux delay 0 calls

/-- Spec-side throttle, written from the claim's words: a call arriving
less than `delay` ms after the last executed call is dropped, any other
call executes immediately. -/
def throttleSpecAux (delay : Nat) : Nat → List Nat → List Nat
  | _, [] => []
  | lastExec, now :: rest =>
    if now - lastExec < delay then throttleSpecAux delay lastExec rest
    else now :: throttleSpecAux delay now rest

/-- The spec-side throttle from the initial state. -/
def throttleSpecRun (delay : Nat) (calls : List Nat) : List Nat :=
  throttleSpecAux delay 0 calls

/-- Trace semantics of the closure returned by `debounce` from
`src/lib/utils.ts` (lines 65-75).  Each call does
`clearTimeout(timeoutId)` and re-arms `setTimeout(func, delay)`; the
pending timer armed at call time `t` fires at `t + delay` unless a
further call arrives strictly before that moment, so on a nondecreasing
call trace the wrapped function runs at `t + delay` exactly when no
later call pre-empts `t`.  The result is the list of firing times. -/
def debounceRun (delay : Nat) : List Nat → List Nat
  | [] => []
  | [t] => [t + delay]
  | t :: t2 :: rest =>
    if t2 < t + delay then debounceRun delay (t2 :: rest)
    else (t + delay) :: debounceRun delay (t2 :: rest)

/-- Spec-side debounce, written from the claim's words: only the last
call of a burst executes, `delay` ms after that call; a burst continues
while the next call arrives less than `delay` ms after the previous
one. -/
def debounceSpec (delay : Nat) : List Nat → List Nat
  | [] => []
  | [t] => [t + delay]
  | t :: t2 :: rest =>
    if t2 - t < delay then debounceSpec delay (t2 :: rest)
    else (t + delay) :: debounceSpec delay (t2 :: rest)

/-- The code-side and spec-side throttle semantics agree from any
closure state. -/
theorem throttleAux_eq_spec (delay : Nat) : ∀ (calls : List Nat) (lastCall : Nat),
    throttleSpecAux delay lastCall calls = throttleAux delay lastCall calls
  | [], _ => rfl
  | now :: rest, lastCall => by
    simp only [throttleAux, throttleSpecAux]
    by_cases h : now - lastCall < delay
    · rw [if_pos h, if_neg (Nat.not_le.mpr h)]
      exact throttleAux_eq_spec delay rest lastCall
    · rw [if_neg h, if_pos (Nat.not_lt.mp h)]
      rw [throttleAux_eq_spec delay rest now]

/-- Every executed throttle call is at least `lastCall + delay` when
all call times are at least `lastCall`. -/
theorem throttleAux_mem_ge (delay : Nat) : ∀ (calls : List Nat) (lastCall : Nat),
    List.Pairwise (· ≤ ·) calls → (∀ x ∈ calls, lastCall ≤ x) →
    ∀ u ∈ throttleAux delay lastCall calls, lastCall + delay ≤ u
  | [], _, _, _ => by intro u hu; cases hu
  | now :: rest, lastCall, hsort, hge => by
    intro u hu
    have hpw := (List.pairwise_cons.mp hsort).2
    have hhd := (List.pairwise_cons.mp hsort).1
    by_cases h : delay ≤ now - lastCall
    · rw [throttleAux, if_pos h] at hu
      have hln : lastCall ≤ now := hge now (List.mem_cons_self now rest)
      cases hu with
      | head => omega
      | tail _ hu2 =>
        have := throttleAux_mem_ge delay rest now hpw hhd u hu2
        omega
    · rw [throttleAux, if_neg h] at hu
      exact throttleAux_mem_ge delay rest lastCall hpw
        (fun x hx => hge x (List.mem_cons_of_mem now hx)) u hu

/-- The executed throttle calls are at least `delay` apart. -/
theorem throttleAux_chain (delay : Nat) : ∀ (calls : List Nat) (lastCall : Nat),
    List.Pairwise (· ≤ ·) calls → (∀ x ∈ calls, lastCall ≤ x) →
    List.Chain' (fun a b => a + delay ≤ b) (throttleAux delay lastCall calls)
  | [], _, _, _ => List.chain'_nil
  | now :: rest, lastCall, hsort, hge => by
    have hpw := (List.pairwise_cons.mp hsort).2
    have hhd := (List.pairwise_cons.mp hsort).1
    by_cases h : delay ≤ now - lastCall
    · rw [throttleAux, if_pos h]
      rw [List.chain'_cons']
      refine ⟨?_, throttleAux_chain delay rest now hpw hhd⟩
      intro b hb
      exact throttleAux_mem_ge delay rest now hpw hhd b (List.mem_of_mem_head? hb)
    · rw [throttleAux, if_neg h]
      exact throttleAux_chain delay rest lastCall hpw
        (fun x hx => hge x (List.mem_cons_of_mem now hx))

/-- The code-side and spec-side debounce semantics agree on
nondecreasing call traces. -/
theorem debounceRun_eq_spec (delay : Nat) : ∀ calls : List Nat,
    List.Pairwise (· ≤ ·) calls → debounceSpec delay calls = debounceRun delay calls
  | [], _ => rfl
  | [_], _ => rfl
  | t :: t2 :: rest, hsort => by
    have h12 : t ≤ t2 := (List.pairwise_cons.mp hsort).1 t2 (List.mem_cons_self t2 rest)
    have hpw := (List.pairwise_cons.mp hsort).2
    have hcond : (t2 - t < delay) = (t2 < t + delay) := by
      apply propext
      omega
    simp only [debounceRun, debounceSpec, hcond]
    by_cases h : t2 < t + delay
    · rw [if_pos h, if_pos h]
      exact debounceRun_eq_spec delay (t2 :: rest) hpw
    · rw [if_neg h, if_neg h]
      rw [debounceRun_eq_spec delay (t2 :: rest) hpw]

/-- C8: on every nondecreasing call trace and for every delay, the
throttle closure behaves exactly as the spec-side throttle (first call
executes when its time is at least `delay` past the initial state, a
call arriving less than `delay` ms after the last executed call is
dropped), consecutive executed throttle calls are at least `delay`
apart, and the debounce closure executes exactly the last call of each
burst, `delay` ms after that call. -/
theorem debounce_throttle_spec (delay : Nat) (calls : List Nat)
    (hsort : List.Pairwise (· ≤ ·) calls) :
    throttleRun delay calls = throttleSpecRun delay calls ∧
    debounceRun delay calls = debounceSpec delay calls ∧
    List.Chain' (fun a b => a + delay ≤ b) (throttleRun delay calls) ∧
    (∀ t rest, calls = t :: rest → delay ≤ t →
      ∃ es, throttleRun delay calls = t :: es) := by
  refine ⟨(throttleAux_eq_spec delay calls 0).symm,
    (debounceRun_eq_spec delay calls hsort).symm,
    throttleAux_chain delay calls 0 hsort (fun x _ => Nat.zero_le x), ?_⟩
  intro t rest hcalls ht
  subst hcalls
  refine ⟨throttleAux delay t rest, ?_⟩
  rw [throttleRun, throttleAux, if_pos (by omega)]

/-- Witness for C8: a concrete trace with delay 100 — the second call
arrives 50 ms after the first executed call and is throttled away,
while debounce fires 100 ms after the end of each burst. -/
theorem debounce_throttle_spec_witness :
    throttleRun 100 [1000, 1050, 1200] = [1000, 1200] ∧
      debounceRun 100 [1000, 1050, 1200] = [1150, 1300] := by
  have h := debounce_throttle_spec 100 [1000, 1050, 1200] (by decide)
  constructor
  · rw [h.1]
    decide
  · rw [h.2.1]
    decide

/-- Modelled from the spec: the Prisma schema file
(`prisma/schema.prisma`) is not part of the delivered source — only
`src/__tests__/config/prisma-schema.test.ts` asserts its text.  Per the
spec's data model, a `Vote` row carries an id, a movie id, a vote-type
tag, a device id, a session id and a timestamp. -/
structure Vote where
  id : String
  movieId : String
  voteType : String
  deviceId : String
  sessionId : String
  timestamp : Nat
deriving DecidableEq

/-- Modelled from the spec: inserting a `Vote` row into the table under
the schema-level constraint `@@unique([movieId, deviceId])` asserted by
`src/__tests__/config/prisma-schema.test.ts` — SQLite rejects the
insert (`Except.error`) when a row with the same `(movieId, deviceId)`
pair already exists. -/
def insertVote (db : List Vote) (v : Vote) : Except Unit (List Vote) :=
  if db.any (fun w => w.movieId == v.movieId && w.deviceId == v.deviceId) then
    Except.error ()
  else Except.ok (v :: db)

/-- Modelled from the spec: the vote-table states reachable from the
empty table through successful constrained inserts and arbitrary row
deletions (the delivered source contains no application logic touching
the table, so these schema-level operations are the only ones). -/
inductive ReachableDb : List Vote → Prop
  | empty : ReachableDb []
  | insert {db db2 : List Vote} {v : Vote} :
      ReachableDb db → insertVote db v = Except.ok db2 → ReachableDb db2
  | delete {db : List Vote} (p : Vote → Bool) :
      ReachableDb db → ReachableDb (db.filter p)

/-- The rows of the table for one `(movieId, deviceId)` pair. -/
def votesFor (db : List Vote) (m d : String) : List Vote :=
  db.filter (fun v => v.movieId == m && v.deviceId == d)

/-- C1: every reachable vote-table state has at most one `Vote` row per
`(movieId, deviceId)` pair — the schema-level uniqueness constraint is
an invariant of all reachable states. -/
theorem vote_unique_invariant (db : List Vote) (h : ReachableDb db) :
    ∀ m d, (votesFor db m d).length ≤ 1 := by
  induction h with
  | empty =>
    intro m d
    simp [votesFor]
  | insert hreach hins ih =>
    rename_i db0 db2 v
    intro m d
    by_cases hguard :
        db0.any (fun w => w.movieId == v.movieId && w.deviceId == v.deviceId) = true
    · unfold insertVote at hins
      rw [if_pos hguard] at hins
      cases hins
    · unfold insertVote at hins
      rw [if_neg hguard] at hins
      injection hins with h2
      subst h2
      rw [votesFor, List.filter_cons]
      by_cases hv : (v.movieId == m && v.deviceId == d) = true
      · rw [if_pos hv]
        have hvm : v.movieId = m := by
          have := (Bool.and_eq_true _ _).mp hv
          exact beq_iff_eq.mp this.1
        have hvd : v.deviceId = d := by
          have := (Bool.and_eq_true _ _).mp hv
          exact beq_iff_eq.mp this.2
        have hempty : List.filter (fun w => w.movieId == m && w.deviceId == d) db0 = [] := by
          rw [List.filter_eq_nil_iff]
          intro w hw
          intro hwq
          apply hguard
          rw [List.any_eq_true]
          refine ⟨w, hw, ?_⟩
          have hwm : w.movieId = m := by
            have := (Bool.and_eq_true _ _).mp hwq
            exact beq_iff_eq.mp this.1
          have hwd : w.deviceId = d := by
            have := (Bool.and_eq_true _ _).mp hwq
            exact beq_iff_eq.mp this.2
          rw [Bool.and_eq_true, beq_iff_eq, beq_iff_eq, hwm, hwd, hvm, hvd]
          exact ⟨rfl, rfl⟩
        rw [hempty]
        simp
      · rw [if_neg hv]
        exact ih m d
  | delete p hdb ih =>
    rename_i db0
    intro m d
    have hsub : (votesFor (db0.filter p) m d).Sublist (votesFor db0 m d) := by
      rw [votesFor, votesFor]
      exact List.Sublist.filter _ (List.filter_sublist db0)
    exact le_trans hsub.length_le (ih m d)

/-- The concrete vote row used by the C1 witness. -/
def voteW : Vote :=
  Vote.mk "id0" "m1" "upvote" "dev1" "s1" 0

/-- Witness for C1: the table holding exactly one successfully inserted
row is reachable, and it has at most one row for the inserted pair. -/
theorem vote_unique_invariant_witness :
    (votesFor [voteW] "m1" "dev1").length ≤ 1 :=
  vote_unique_invariant [voteW]
    (ReachableDb.insert ReachableDb.empty rfl) "m1" "dev1"
